import Mathlib

/-!
Verification of the two observability monitors
(`StateComparisonMonitor` and `StateMetricsMonitor`) of the
`models-observability` repository, as a shallow embedding.

Python values carried by signals are modelled by the inductive `Val`;
Python `float` arithmetic is modelled by exact rational arithmetic `ℚ`;
Python dictionaries keyed by the four fixed stream names are modelled by
functions `StreamName → Option _`; the output dictionary is modelled by an
association list `List (String × _)`; Python list slicing `xs[i:]` is
modelled by `pySliceFrom`.
-/

namespace ModelsObservability

/-- A Python value as it can appear in `BioSignal.value`: a number
(`int`/`float`), a boolean (`bool`, a subtype of `int` in Python), a
string, a dictionary, a list, or any other shape. -/
inductive Val where
  | num (q : ℚ)
  | bool (b : Bool)
  | str (s : String)
  | dict (entries : List (String × Val))
  | list (elems : List Val)
  | other

/-- Python `isinstance(v, (int, float))`.  Booleans pass this test because
`bool` is a subclass of `int`. -/
def pyIsNumber : Val → Bool
  | .num _ => true
  | .bool _ => true
  | _ => false

/-- Python `float(v)` on a value that passed `isinstance(v, (int, float))`. -/
def pyToFloat : Val → ℚ
  | .num q => q
  | .bool b => if b then 1 else 0
  | _ => 0

/-- `sum(nums) / len(nums)` for a list of numbers. -/
def listMean (xs : List ℚ) : ℚ := xs.sum / (xs.length : ℚ)

/-- `StateComparisonMonitor._scalar_projection`: number → itself; dict →
mean of the numeric values if any, else fall through; list → mean of the
numeric elements if any, else fall through; everything else → `0.0`. -/
def scalar_projection (value : Val) : ℚ :=
  match value with
  | .num q => q
  | .bool b => if b then 1 else 0
  | .dict entries =>
      let nums := ((entries.map Prod.snd).filter pyIsNumber).map pyToFloat
      if nums.isEmpty then 0 else listMean nums
  | .list elems =>
      let nums := (elems.filter pyIsNumber).map pyToFloat
      if nums.isEmpty then 0 else listMean nums
  | _ => 0

/-- `StateMetricsMonitor._extract_scalar`: same branch structure as
`_scalar_projection` (the dict branch builds its list by comprehension
instead of an explicit loop, with the same result). -/
def extract_scalar (value : Val) : ℚ :=
  match value with
  | .num q => q
  | .bool b => if b then 1 else 0
  | .dict entries =>
      let nums := ((entries.map Prod.snd).filter pyIsNumber).map pyToFloat
      if nums.isEmpty then 0 else listMean nums
  | .list elems =>
      let nums := (elems.filter pyIsNumber).map pyToFloat
      if nums.isEmpty then 0 else listMean nums
  | _ => 0

/-- The four fixed input stream slots, `self.inputs()`. -/
inductive StreamName where
  | state_a | state_b | state_c | state_d
deriving DecidableEq, Repr, Fintype

/-- The stream name as the Python string key. -/
def StreamName.str : StreamName → String
  | .state_a => "state_a"
  | .state_b => "state_b"
  | .state_c => "state_c"
  | .state_d => "state_d"

/-- Position of a stream name in the lexical order of the four slot
names. -/
def StreamName.idx : StreamName → ℕ
  | .state_a => 0
  | .state_b => 1
  | .state_c => 2
  | .state_d => 3

/-- `sorted(self.inputs())`: the four slot names in lexical order. -/
def sortedInputNames : List StreamName :=
  [.state_a, .state_b, .state_c, .state_d]

/-- An incoming `BioSignal`: only the fields the monitors read. -/
structure BioSignal where
  source : String
  name : String
  value : Val
  time : ℚ

/-- The `signals` argument of `set_inputs`, restricted to the four slots
the monitors look up (`signals.get(name)`); unknown keys are never read
and hence invisible. -/
abbrev SignalMap := StreamName → Option BioSignal

/-- Point update of a stream-keyed dictionary. -/
def updMap {α : Type} (m : StreamName → Option α) (k : StreamName)
    (v : Option α) : StreamName → Option α :=
  fun j => if j = k then v else m j

/-- Python `xs[i:]` for an arbitrary (possibly negative) integer `i`. -/
def pySliceFrom {α : Type} (i : ℤ) (xs : List α) : List α :=
  if i < 0 then xs.drop (xs.length - (-i).toNat)
  else xs.drop i.toNat

/-- The history trimming step shared by both monitors:
`if len(xs) > max_points: xs = xs[-max_points:]`. -/
def trimPy {α : Type} (max_points : ℤ) (xs : List α) : List α :=
  if (xs.length : ℤ) > max_points then pySliceFrom (-max_points) xs else xs

/-- The last `n` elements of a list (the retained window). -/
def takeLastN {α : Type} (n : ℕ) (xs : List α) : List α :=
  xs.drop (xs.length - n)

/-- Lookup in a string-keyed association list (first match wins, as in a
Python dictionary, whose keys are unique). -/
def lookupD {β : Type} (k : String) : List (String × β) → Option β
  | [] => Option.none
  | (k', v) :: rest => if k' = k then Option.some v else lookupD k rest

/-- Lookup in a stream-keyed association list. -/
def lookupS {β : Type} (k : StreamName) : List (StreamName × β) → Option β
  | [] => Option.none
  | (k', v) :: rest => if k' = k then Option.some v else lookupS k rest

/-- Output-signal metadata: the fields the monitors set. -/
structure SignalMetadata where
  description : String
  kind : String
deriving DecidableEq, Repr

/-! ## StateComparisonMonitor -/

/-- One entry of `self._latest`: `{"t": t, "scalar": scalar, "source": src}`. -/
structure LatestEntry where
  t : ℚ
  scalar : ℚ
  source : String
deriving DecidableEq, Repr

/-- The payload dictionary of the `comparison_state` output signal. -/
structure CmpPayload where
  t : ℚ
  latest_values : List (StreamName × ℚ)
  pairwise_deltas : List (String × ℚ)
  n_streams : ℕ
deriving DecidableEq, Repr

/-- The `comparison_state` output `BioSignal`. -/
structure CmpSignal where
  source : String
  name : String
  value : CmpPayload
  time : ℚ
  metadata : SignalMetadata
deriving DecidableEq, Repr

/-- The mutable state of a `StateComparisonMonitor` instance.
`world_name` models the ambient `_world_name` attribute a host may have
set (`getattr(self, "_world_name", self.__class__.__name__)`); it is not
touched by `reset`. -/
structure CmpState where
  max_points : ℤ
  min_dt : ℚ
  latest : StreamName → Option LatestEntry
  series : StreamName → Option (List (ℚ × ℚ))
  last_t : ℚ
  outputs : List (String × CmpSignal)
  world_name : Option String

/-- `StateComparisonMonitor.__init__(max_points, min_dt)`. -/
def CmpState.init (max_points : ℤ) (min_dt : ℚ) : CmpState where
  max_points := max_points
  min_dt := min_dt
  latest := fun _ => Option.none
  series := fun _ => Option.none
  last_t := 0
  outputs := []
  world_name := Option.none

/-- `StateComparisonMonitor.reset`. -/
def CmpState.reset (s : CmpState) : CmpState :=
  { s with
    latest := fun _ => Option.none
    series := fun _ => Option.none
    last_t := 0
    outputs := [] }

/-- One iteration of the `for name in sorted(self.inputs())` loop of
`StateComparisonMonitor.set_inputs`. -/
def cmpStep (signals : SignalMap) (s : CmpState) (name : StreamName) :
    CmpState :=
  match signals name with
  | Option.none => s
  | Option.some sig =>
      let t := sig.time
      let scalar := scalar_projection sig.value
      let appended := ((s.series name).getD []) ++ [(t, scalar)]
      { s with
        latest := updMap s.latest name (Option.some ⟨t, scalar, sig.source⟩)
        series := updMap s.series name (Option.some (trimPy s.max_points appended))
        last_t := max s.last_t t }

/-- `StateComparisonMonitor.set_inputs`. -/
def CmpState.set_inputs (s : CmpState) (signals : SignalMap) : CmpState :=
  sortedInputNames.foldl (cmpStep signals) s

/-- The composite key `f"{left}_minus_{right}"` of a pairwise delta. -/
def deltaLabel (l r : StreamName) : String :=
  l.str ++ "_minus_" ++ r.str

/-- The nested loop of `StateComparisonMonitor.advance_to` building the
`deltas` dictionary over the sorted association list of latest values,
in insertion order. -/
def pairDeltas : List (StreamName × ℚ) → List (String × ℚ)
  | [] => []
  | (l, x) :: rest =>
      rest.map (fun p => (deltaLabel l p.1, x - p.2)) ++ pairDeltas rest

/-- `active = [k for k in sorted(self._latest.keys()) if k in self.inputs()]`:
the streams with a recorded update, in lexical order. -/
def activeC (s : CmpState) : List StreamName :=
  sortedInputNames.filter (fun k => (s.latest k).isSome)

/-- `latest_values = {k: float(self._latest[k]["scalar"]) for k in active}`. -/
def latestValuesC (s : CmpState) : List (StreamName × ℚ) :=
  (activeC s).filterMap (fun k => (s.latest k).map (fun e => (k, e.scalar)))

/-- `StateComparisonMonitor.advance_to`. -/
def CmpState.advance_to (s : CmpState) (t : ℚ) : CmpState :=
  let now := max t s.last_t
  let active := activeC s
  let latest_values := latestValuesC s
  let source_name := s.world_name.getD "StateComparisonMonitor"
  { s with
    outputs := [("comparison_state",
      { source := source_name
        name := "comparison_state"
        value :=
          { t := now
            latest_values := latest_values
            pairwise_deltas := pairDeltas latest_values
            n_streams := active.length }
        time := now
        metadata := ⟨"State comparison summary", "state"⟩ })] }

/-- `dict(d)`: a fresh dictionary with the same items. -/
def dictCopy {β : Type} (d : List (String × β)) : List (String × β) :=
  d.foldr (fun kv acc => kv :: acc) []

/-- `StateComparisonMonitor.get_outputs`: returns a copy of `self._outputs`
and leaves the monitor state untouched. -/
def CmpState.get_outputs (s : CmpState) : List (String × CmpSignal) × CmpState :=
  (dictCopy s.outputs, s)

/-- The payload of the currently stored `comparison_state` signal (the
zero payload when no advance has happened yet). -/
def cmpSnap (s : CmpState) : CmpPayload :=
  match lookupD "comparison_state" s.outputs with
  | Option.some sig => sig.value
  | Option.none => ⟨0, [], [], 0⟩

/-! ## Visualization payloads -/

/-- The `data` field of a render block. -/
inductive RenderData where
  | timeseries (title : String) (series : List (String × List (ℚ × ℚ)))
  | table (columns : List String) (rows : List (List String))
deriving DecidableEq, Repr

/-- One render block of a visualization payload. -/
structure RenderBlock where
  render : String
  data : RenderData
  description : String
deriving DecidableEq, Repr

/-- Left-pad a string with zeros to width `k`. -/
def padZeros (k : ℕ) (s : String) : String :=
  String.mk (List.replicate (k - s.length) '0') ++ s

/-- Python's `f"{x:.6f}"` fixed-point formatting of a number, modelled on
exact rationals: the value rounded to six decimal places and printed with
exactly six fractional digits. -/
def formatFixed6 (q : ℚ) : String :=
  let scaled : ℤ := round (q * 1000000)
  let sign := if scaled < 0 then "-" else ""
  let n := scaled.natAbs
  sign ++ toString (n / 1000000) ++ "." ++ padZeros 6 (toString (n % 1000000))

/-- `sorted(d.keys())` iteration over a stream-keyed dictionary: the
present keys in lexical order, paired with their values. -/
def sortedItems {β : Type} (d : List (StreamName × β)) :
    List (StreamName × β) :=
  sortedInputNames.filterMap (fun k => (lookupS k d).map (fun v => (k, v)))

/-- `sorted(self._series.items())`: the streams with recorded history,
in lexical order, paired with their point lists. -/
def seriesItemsC (s : CmpState) : List (StreamName × List (ℚ × ℚ)) :=
  sortedInputNames.filterMap (fun k => (s.series k).map (fun pts => (k, pts)))

/-- `StateComparisonMonitor.visualize`. -/
def CmpState.visualize (s : CmpState) : Option (List RenderBlock) :=
  let items := seriesItemsC s
  if items.isEmpty then Option.none
  else
    let timeseries : RenderBlock :=
      { render := "timeseries"
        data := RenderData.timeseries "State Stream Comparison"
          (items.map (fun p => (p.1.str, p.2)))
        description := "Scalar projections for each incoming state stream." }
    let latest_values : List (StreamName × ℚ) :=
      match lookupD "comparison_state" s.outputs with
      | Option.some sig => sig.value.latest_values
      | Option.none => []
    let rows : List (List String) :=
      (sortedItems latest_values).map (fun p => [p.1.str, formatFixed6 p.2])
    let table : RenderBlock :=
      { render := "table"
        data := RenderData.table ["Stream", "Latest Scalar"] rows
        description := "Latest scalar value per state input stream." }
    Option.some [timeseries, table]

/-! ## StateMetricsMonitor -/

/-- The result dictionary of `StateMetricsMonitor._summary`. -/
structure Summary where
  count : ℚ
  mean : ℚ
  min : ℚ
  max : ℚ
deriving DecidableEq, Repr

/-- `StateMetricsMonitor._summary`: zeros on an empty list, otherwise
count, arithmetic mean, `min(values)` and `max(values)`. -/
def summary (values : List ℚ) : Summary :=
  match values with
  | [] => ⟨0, 0, 0, 0⟩
  | v :: vs =>
      ⟨((v :: vs).length : ℚ), (v :: vs).sum / ((v :: vs).length : ℚ),
        vs.foldl min v, vs.foldl max v⟩

/-- The payload dictionary of the `metrics` output signal. -/
structure MetPayload where
  t : ℚ
  stream_metrics : List (StreamName × Summary)
  stream_count : ℕ
deriving DecidableEq, Repr

/-- The `metrics` output `BioSignal`. -/
structure MetSignal where
  source : String
  name : String
  value : MetPayload
  time : ℚ
  metadata : SignalMetadata
deriving DecidableEq, Repr

/-- The mutable state of a `StateMetricsMonitor` instance. -/
structure MetState where
  max_points : ℤ
  min_dt : ℚ
  history : StreamName → Option (List ℚ)
  latest_t : ℚ
  outputs : List (String × MetSignal)
  world_name : Option String

/-- `StateMetricsMonitor.__init__(max_points, min_dt)`. -/
def MetState.init (max_points : ℤ) (min_dt : ℚ) : MetState where
  max_points := max_points
  min_dt := min_dt
  history := fun _ => Option.none
  latest_t := 0
  outputs := []
  world_name := Option.none

/-- `StateMetricsMonitor.reset`. -/
def MetState.reset (s : MetState) : MetState :=
  { s with
    history := fun _ => Option.none
    latest_t := 0
    outputs := [] }

/-- One iteration of the `for name in sorted(self.inputs())` loop of
`StateMetricsMonitor.set_inputs`. -/
def metStep (signals : SignalMap) (s : MetState) (name : StreamName) :
    MetState :=
  match signals name with
  | Option.none => s
  | Option.some sig =>
      let scalar := extract_scalar sig.value
      let appended := ((s.history name).getD []) ++ [scalar]
      { s with
        history := updMap s.history name (Option.some (trimPy s.max_points appended))
        latest_t := max s.latest_t sig.time }

/-- `StateMetricsMonitor.set_inputs`. -/
def MetState.set_inputs (s : MetState) (signals : SignalMap) : MetState :=
  sortedInputNames.foldl (metStep signals) s

/-- `per_stream = {k: self._summary(v) for k, v in sorted(self._history.items())}`. -/
def perStreamM (s : MetState) : List (StreamName × Summary) :=
  sortedInputNames.filterMap
    (fun k => (s.history k).map (fun v => (k, summary v)))

/-- `StateMetricsMonitor.advance_to`. -/
def MetState.advance_to (s : MetState) (t : ℚ) : MetState :=
  let now := max t s.latest_t
  let per_stream := perStreamM s
  let source_name := s.world_name.getD "StateMetricsMonitor"
  { s with
    outputs := [("metrics",
      { source := source_name
        name := "metrics"
        value :=
          { t := now
            stream_metrics := per_stream
            stream_count := per_stream.length }
        time := now
        metadata := ⟨"State stream metrics summary", "state"⟩ })] }

/-- `StateMetricsMonitor.get_outputs`. -/
def MetState.get_outputs (s : MetState) : List (String × MetSignal) × MetState :=
  (dictCopy s.outputs, s)

/-- The payload of the currently stored `metrics` signal (the zero
payload when no advance has happened yet). -/
def metSnap (s : MetState) : MetPayload :=
  match lookupD "metrics" s.outputs with
  | Option.some sig => sig.value
  | Option.none => ⟨0, [], 0⟩

/-- Python `int(x)` on a float: truncation toward zero. -/
def pyInt (q : ℚ) : ℤ :=
  if q < 0 then -(⌊-q⌋) else ⌊q⌋

/-- `sorted(self._history.items())`: the streams with recorded history,
in lexical order, paired with their scalar lists. -/
def histItemsM (s : MetState) : List (StreamName × List ℚ) :=
  sortedInputNames.filterMap (fun k => (s.history k).map (fun v => (k, v)))

/-- `StateMetricsMonitor.visualize`. -/
def MetState.visualize (s : MetState) : Option (List RenderBlock) :=
  let items := histItemsM s
  if items.isEmpty then Option.none
  else
    let series : List (String × List (ℚ × ℚ)) :=
      items.map (fun p =>
        (p.1.str, p.2.enum.map (fun iv => ((iv.1 : ℚ), iv.2))))
    let metrics : List (StreamName × Summary) :=
      match lookupD "metrics" s.outputs with
      | Option.some sig => sig.value.stream_metrics
      | Option.none => []
    let rows : List (List String) :=
      (sortedItems metrics).map (fun p =>
        [p.1.str, toString (pyInt p.2.count), formatFixed6 p.2.mean,
          formatFixed6 p.2.min, formatFixed6 p.2.max])
    Option.some
      [{ render := "timeseries"
         data := RenderData.timeseries "State Stream Metrics (Scalar History)" series
         description := "Scalar history per stream for quick trend checks." },
       { render := "table"
         data := RenderData.table ["Stream", "Count", "Mean", "Min", "Max"] rows
         description := "Descriptive metrics for each stream." }]

/-! ## Operation traces -/

/-- One host-driven operation on a monitor. -/
inductive MOp where
  | set (signals : SignalMap)
  | advance (t : ℚ)
  | reset

/-- Apply one operation to a comparison-monitor state. -/
def CmpState.apply : CmpState → MOp → CmpState
  | s, .set sigs => s.set_inputs sigs
  | s, .advance t => s.advance_to t
  | s, .reset => s.reset

/-- Apply one operation to a metrics-monitor state. -/
def MetState.apply : MetState → MOp → MetState
  | s, .set sigs => s.set_inputs sigs
  | s, .advance t => s.advance_to t
  | s, .reset => s.reset

/-- The comparison-monitor state after running a trace of operations from
a fresh instance. -/
def runC (max_points : ℤ) (min_dt : ℚ) (ops : List MOp) : CmpState :=
  ops.foldl CmpState.apply (CmpState.init max_points min_dt)

/-- The metrics-monitor state after running a trace of operations from a
fresh instance. -/
def runM (max_points : ℤ) (min_dt : ℚ) (ops : List MOp) : MetState :=
  ops.foldl MetState.apply (MetState.init max_points min_dt)

/-- Whether stream `k` has received at least one update since the last
reset (or since construction) along a trace. -/
def receivedSince (ops : List MOp) (k : StreamName) : Bool :=
  ops.foldl
    (fun acc op =>
      match op with
      | .set sigs => acc || (sigs k).isSome
      | .advance _ => acc
      | .reset => false)
    false

/-- Whether a trace contains no advance operation. -/
def noAdvance (ops : List MOp) : Bool :=
  ops.all (fun op => match op with | .advance _ => false | _ => true)

/-- A fresh `signals` dictionary carrying exactly one stream's signal. -/
def singleMap (k : StreamName) (sig : BioSignal) : SignalMap :=
  fun j => if j = k then Option.some sig else Option.none

/-! ## Spec-side definitions (used only to state claims) -/

/-- The numeric entries of a list of values, as numbers. -/
def numericValuesOf (vs : List Val) : List ℚ :=
  (vs.filter pyIsNumber).map pyToFloat

/-- Arithmetic mean with the ignore/empty rule of the spec: the empty
list of numeric entries yields `0`. -/
def meanOrZero (xs : List ℚ) : ℚ :=
  if xs = [] then 0 else xs.sum / (xs.length : ℚ)

/-- The Scalar Projector contract, written from the spec's words: a
number projects to itself, a mapping to the arithmetic mean of its
numeric entries (`0` if none), a sequence to the arithmetic mean of its
numeric elements (`0` if none), and any other shape to `0`. -/
def projection_spec (v : Val) : ℚ :=
  if pyIsNumber v then pyToFloat v
  else
    match v with
    | .dict entries => meanOrZero (numericValuesOf (entries.map Prod.snd))
    | .list elems => meanOrZero (numericValuesOf elems)
    | _ => 0

/-- The timestamps observed in one `set_inputs` call, in processing
order. -/
def presentTimes (sigs : SignalMap) : List ℚ :=
  sortedInputNames.filterMap (fun k => (sigs k).map (fun sg => sg.time))

/-- The projected observation a comparison monitor appends for a signal. -/
def obsC (sg : BioSignal) : ℚ × ℚ :=
  (sg.time, scalar_projection sg.value)

/-- The projected scalar a metrics monitor appends for a signal. -/
def obsM (sg : BioSignal) : ℚ :=
  extract_scalar sg.value

/-! ## Concrete fixtures for the spec's scenarios and for witnesses -/

/-- A simple numeric signal, for concrete traces. -/
def numSig (src : String) (q t : ℚ) : BioSignal :=
  ⟨src, "w", Val.num q, t⟩

/-- Scenario input `state_a = {x: 10, y: 20}` at `t = 1.0`. -/
def cSigA : BioSignal :=
  ⟨"a", "state_a", Val.dict [("x", Val.num 10), ("y", Val.num 20)], 1⟩

/-- Scenario input `state_b = {x: 4, z: 8}` at `t = 1.0`. -/
def cSigB : BioSignal :=
  ⟨"b", "state_b", Val.dict [("x", Val.num 4), ("z", Val.num 8)], 1⟩

/-- The comparison scenario's `set_inputs` argument. -/
def cSigs : SignalMap :=
  fun j =>
    if j = StreamName.state_a then Option.some cSigA
    else if j = StreamName.state_b then Option.some cSigB
    else Option.none

/-- Scenario input `state_a = {x: 1, y: 3}` at `t = 1.0`. -/
def mSigA1 : BioSignal :=
  ⟨"a", "state_a", Val.dict [("x", Val.num 1), ("y", Val.num 3)], 1⟩

/-- Scenario input `state_a = {x: 3, y: 5}` at `t = 2.0`. -/
def mSigA2 : BioSignal :=
  ⟨"a", "state_a", Val.dict [("x", Val.num 3), ("y", Val.num 5)], 2⟩

/-- Scenario input `state_b = 5.0` at `t = 1.0`. -/
def mSigB : BioSignal :=
  ⟨"b", "state_b", Val.num 5, 1⟩

/-- The metrics scenario's first `set_inputs` argument. -/
def mSigs1 : SignalMap :=
  fun j =>
    if j = StreamName.state_a then Option.some mSigA1
    else if j = StreamName.state_b then Option.some mSigB
    else Option.none

/-- The metrics scenario's second `set_inputs` argument. -/
def mSigs2 : SignalMap :=
  singleMap StreamName.state_a mSigA2

/-! ## Characterization of the ingestion stage -/

lemma cmpStep_outputs (sigs : SignalMap) (s : CmpState) (name : StreamName) :
    (cmpStep sigs s name).outputs = s.outputs := by
  cases h : sigs name <;> simp [cmpStep, h]

lemma cmpStep_max_points (sigs : SignalMap) (s : CmpState) (name : StreamName) :
    (cmpStep sigs s name).max_points = s.max_points := by
  cases h : sigs name <;> simp [cmpStep, h]

lemma cmpStep_min_dt (sigs : SignalMap) (s : CmpState) (name : StreamName) :
    (cmpStep sigs s name).min_dt = s.min_dt := by
  cases h : sigs name <;> simp [cmpStep, h]

lemma cmpStep_world_name (sigs : SignalMap) (s : CmpState) (name : StreamName) :
    (cmpStep sigs s name).world_name = s.world_name := by
  cases h : sigs name <;> simp [cmpStep, h]

lemma set_inputsC_eq (s : CmpState) (sigs : SignalMap) :
    s.set_inputs sigs =
      cmpStep sigs (cmpStep sigs (cmpStep sigs (cmpStep sigs s
        StreamName.state_a) StreamName.state_b) StreamName.state_c)
        StreamName.state_d := rfl

lemma set_inputsC_outputs (s : CmpState) (sigs : SignalMap) :
    (s.set_inputs sigs).outputs = s.outputs := by
  simp [set_inputsC_eq, cmpStep_outputs]

lemma set_inputsC_max_points (s : CmpState) (sigs : SignalMap) :
    (s.set_inputs sigs).max_points = s.max_points := by
  simp [set_inputsC_eq, cmpStep_max_points]

lemma set_inputsC_min_dt (s : CmpState) (sigs : SignalMap) :
    (s.set_inputs sigs).min_dt = s.min_dt := by
  simp [set_inputsC_eq, cmpStep_min_dt]

lemma set_inputsC_world_name (s : CmpState) (sigs : SignalMap) :
    (s.set_inputs sigs).world_name = s.world_name := by
  simp [set_inputsC_eq, cmpStep_world_name]

lemma set_inputsC_latest (s : CmpState) (sigs : SignalMap) (j : StreamName) :
    (s.set_inputs sigs).latest j =
      match sigs j with
      | Option.none => s.latest j
      | Option.some sig =>
          Option.some ⟨sig.time, scalar_projection sig.value, sig.source⟩ := by
  cases j <;>
    cases h1 : sigs StreamName.state_a <;>
    cases h2 : sigs StreamName.state_b <;>
    cases h3 : sigs StreamName.state_c <;>
    cases h4 : sigs StreamName.state_d <;>
    simp [set_inputsC_eq, cmpStep, updMap, h1, h2, h3, h4]

lemma set_inputsC_series (s : CmpState) (sigs : SignalMap) (j : StreamName) :
    (s.set_inputs sigs).series j =
      match sigs j with
      | Option.none => s.series j
      | Option.some sig =>
          Option.some (trimPy s.max_points (((s.series j).getD []) ++ [obsC sig])) := by
  cases j <;>
    cases h1 : sigs StreamName.state_a <;>
    cases h2 : sigs StreamName.state_b <;>
    cases h3 : sigs StreamName.state_c <;>
    cases h4 : sigs StreamName.state_d <;>
    simp [set_inputsC_eq, cmpStep, updMap, obsC, h1, h2, h3, h4]

lemma set_inputsC_last_t (s : CmpState) (sigs : SignalMap) :
    (s.set_inputs sigs).last_t = List.foldl max s.last_t (presentTimes sigs) := by
  cases h1 : sigs StreamName.state_a <;>
    cases h2 : sigs StreamName.state_b <;>
    cases h3 : sigs StreamName.state_c <;>
    cases h4 : sigs StreamName.state_d <;>
    simp [set_inputsC_eq, cmpStep, presentTimes, sortedInputNames, h1, h2, h3, h4]

lemma metStep_outputs (sigs : SignalMap) (s : MetState) (name : StreamName) :
    (metStep sigs s name).outputs = s.outputs := by
  cases h : sigs name <;> simp [metStep, h]

lemma metStep_max_points (sigs : SignalMap) (s : MetState) (name : StreamName) :
    (metStep sigs s name).max_points = s.max_points := by
  cases h : sigs name <;> simp [metStep, h]

lemma metStep_min_dt (sigs : SignalMap) (s : MetState) (name : StreamName) :
    (metStep sigs s name).min_dt = s.min_dt := by
  cases h : sigs name <;> simp [metStep, h]

lemma metStep_world_name (sigs : SignalMap) (s : MetState) (name : StreamName) :
    (metStep sigs s name).world_name = s.world_name := by
  cases h : sigs name <;> simp [metStep, h]

lemma set_inputsM_eq (s : MetState) (sigs : SignalMap) :
    s.set_inputs sigs =
      metStep sigs (metStep sigs (metStep sigs (metStep sigs s
        StreamName.state_a) StreamName.state_b) StreamName.state_c)
        StreamName.state_d := rfl

lemma set_inputsM_outputs (s : MetState) (sigs : SignalMap) :
    (s.set_inputs sigs).outputs = s.outputs := by
  simp [set_inputsM_eq, metStep_outputs]

lemma set_inputsM_max_points (s : MetState) (sigs : SignalMap) :
    (s.set_inputs sigs).max_points = s.max_points := by
  simp [set_inputsM_eq, metStep_max_points]

lemma set_inputsM_min_dt (s : MetState) (sigs : SignalMap) :
    (s.set_inputs sigs).min_dt = s.min_dt := by
  simp [set_inputsM_eq, metStep_min_dt]

lemma set_inputsM_world_name (s : MetState) (sigs : SignalMap) :
    (s.set_inputs sigs).world_name = s.world_name := by
  simp [set_inputsM_eq, metStep_world_name]

lemma set_inputsM_history (s : MetState) (sigs : SignalMap) (j : StreamName) :
    (s.set_inputs sigs).history j =
      match sigs j with
      | Option.none => s.history j
      | Option.some sig =>
          Option.some (trimPy s.max_points (((s.history j).getD []) ++ [obsM sig])) := by
  cases j <;>
    cases h1 : sigs StreamName.state_a <;>
    cases h2 : sigs StreamName.state_b <;>
    cases h3 : sigs StreamName.state_c <;>
    cases h4 : sigs StreamName.state_d <;>
    simp [set_inputsM_eq, metStep, updMap, obsM, h1, h2, h3, h4]

lemma set_inputsM_latest_t (s : MetState) (sigs : SignalMap) :
    (s.set_inputs sigs).latest_t = List.foldl max s.latest_t (presentTimes sigs) := by
  cases h1 : sigs StreamName.state_a <;>
    cases h2 : sigs StreamName.state_b <;>
    cases h3 : sigs StreamName.state_c <;>
    cases h4 : sigs StreamName.state_d <;>
    simp [set_inputsM_eq, metStep, presentTimes, sortedInputNames, h1, h2, h3, h4]

/-! ## Advance and reset leave the ingestion state untouched -/

lemma advC_series (s : CmpState) (t : ℚ) : (s.advance_to t).series = s.series := rfl

lemma advC_latest (s : CmpState) (t : ℚ) : (s.advance_to t).latest = s.latest := rfl

lemma advC_last_t (s : CmpState) (t : ℚ) : (s.advance_to t).last_t = s.last_t := rfl

lemma advC_max_points (s : CmpState) (t : ℚ) :
    (s.advance_to t).max_points = s.max_points := rfl

lemma advM_history (s : MetState) (t : ℚ) : (s.advance_to t).history = s.history := rfl

lemma advM_latest_t (s : MetState) (t : ℚ) : (s.advance_to t).latest_t = s.latest_t := rfl

lemma advM_max_points (s : MetState) (t : ℚ) :
    (s.advance_to t).max_points = s.max_points := rfl

/-! ## The bounded-history window -/

lemma takeLastN_eq_rtake {α : Type} (n : ℕ) (xs : List α) :
    takeLastN n xs = xs.rtake n := rfl

lemma trimPy_of_pos {α : Type} {mp : ℤ} (h : 0 < mp) (xs : List α) :
    trimPy mp xs = takeLastN mp.toNat xs := by
  unfold trimPy takeLastN
  by_cases hlen : (xs.length : ℤ) > mp
  · rw [if_pos hlen]
    unfold pySliceFrom
    rw [if_pos (by omega : -mp < 0)]
    congr 1
    omega
  · rw [if_neg hlen]
    have : xs.length - mp.toNat = 0 := by omega
    rw [this, List.drop_zero]

lemma takeLastN_length {α : Type} (n : ℕ) (xs : List α) :
    (takeLastN n xs).length = min n xs.length := by
  unfold takeLastN
  rw [List.length_drop]
  omega

lemma takeLastN_of_le {α : Type} {n : ℕ} {xs : List α} (h : xs.length ≤ n) :
    takeLastN n xs = xs := by
  unfold takeLastN
  have : xs.length - n = 0 := by omega
  rw [this, List.drop_zero]

lemma take_append_take {α : Type} (n : ℕ) (a b : List α) :
    (a ++ b.take n).take n = (a ++ b).take n := by
  rw [List.take_append_eq_append_take, List.take_append_eq_append_take,
    List.take_take]
  congr 2
  omega

lemma takeLastN_append_takeLastN {α : Type} (n : ℕ) (xs ys : List α) :
    takeLastN n (takeLastN n xs ++ ys) = takeLastN n (xs ++ ys) := by
  simp only [takeLastN_eq_rtake, List.rtake_eq_reverse_take_reverse,
    List.reverse_append, List.reverse_reverse]
  rw [take_append_take]

/-! ## Claim theorems: scalar projection -/

/-- C1.  The scalar projection is total and shape-directed: both
`_scalar_projection` and `_extract_scalar` agree, on every value, with the
spec's contract `projection_spec` (number → itself, mapping → mean of its
numeric entries or `0`, sequence → mean of its numeric elements or `0`,
any other shape → `0`), so neither can fail on any input. -/
theorem scalar_projection_matches_spec (v : Val) :
    scalar_projection v = projection_spec v ∧
      extract_scalar v = projection_spec v := by
  have h : ∀ w : Val, scalar_projection w = projection_spec w := by
    intro w
    cases w with
    | dict entries =>
        by_cases hn : ((entries.map Prod.snd).filter pyIsNumber).map pyToFloat = []
        · simp [scalar_projection, projection_spec, pyIsNumber, numericValuesOf,
            meanOrZero, hn]
        · simp [scalar_projection, projection_spec, pyIsNumber, numericValuesOf,
            meanOrZero, listMean, hn, List.isEmpty_iff]
    | list elems =>
        by_cases hn : (elems.filter pyIsNumber).map pyToFloat = []
        · simp [scalar_projection, projection_spec, pyIsNumber, numericValuesOf,
            meanOrZero, hn]
        · simp [scalar_projection, projection_spec, pyIsNumber, numericValuesOf,
            meanOrZero, listMean, hn, List.isEmpty_iff]
    | num q => rfl
    | bool b => rfl
    | str t => rfl
    | other => rfl
  have heq : extract_scalar v = scalar_projection v := by
    cases v <;> rfl
  exact ⟨h v, heq.trans (h v)⟩

/-- C10 (implicit).  Booleans count as numbers in the projection, because
Python's `bool` is a subtype of `int`: `True` projects to `1.0`, `False`
to `0.0` (not the other-shape fallback `0` — the fallback applies only to
non-numeric shapes), and boolean entries inside a mapping or a list count
as numeric contributions to the mean, e.g. `{"x": True, "y": 3}` projects
to `2.0`. -/
theorem bool_counts_as_number :
    (∀ b, pyIsNumber (Val.bool b) = true) ∧
      scalar_projection (Val.bool true) = 1 ∧
      scalar_projection (Val.bool false) = 0 ∧
      extract_scalar (Val.bool true) = 1 ∧
      extract_scalar (Val.bool false) = 0 ∧
      scalar_projection (Val.dict [("x", Val.bool true), ("y", Val.num 3)]) = 2 ∧
      extract_scalar (Val.dict [("x", Val.bool true), ("y", Val.num 3)]) = 2 ∧
      scalar_projection (Val.list [Val.bool true, Val.num 3]) = 2 := by
  refine ⟨fun b => rfl, ?_, ?_, ?_, ?_, ?_, ?_, ?_⟩ <;>
    norm_num [scalar_projection, extract_scalar, pyIsNumber, pyToFloat, listMean]

/-! ## High-water time -/

lemma le_foldl_max (t0 : ℚ) (l : List ℚ) : t0 ≤ List.foldl max t0 l := by
  induction l generalizing t0 with
  | nil => exact le_refl t0
  | cons x xs ih => exact le_trans (le_max_left t0 x) (ih (max t0 x))

lemma foldl_max_of_le {t0 : ℚ} {l : List ℚ} (h : ∀ x ∈ l, x ≤ t0) :
    List.foldl max t0 l = t0 := by
  induction l with
  | nil => rfl
  | cons x xs ih =>
      simp only [List.foldl_cons]
      rw [max_eq_left (h x (List.mem_cons_self x xs))]
      exact ih (fun y hy => h y (List.mem_cons_of_mem x hy))

/-- C3.  High-Water Time is monotonically non-decreasing across every
sequence of `set_inputs` calls with arbitrary timestamps (the statement
quantifies over an arbitrary pre-call state, hence applies at every point
of every sequence, for both monitor variants): after a call it equals the
maximum of its previous value and every timestamp observed in the call,
it never decreases, and a call carrying only timestamps older than the
current value leaves it unchanged. -/
theorem high_water_monotone (s : CmpState) (m : MetState) (sigs : SignalMap) :
    ((s.set_inputs sigs).last_t = List.foldl max s.last_t (presentTimes sigs) ∧
      s.last_t ≤ (s.set_inputs sigs).last_t ∧
      ((∀ tm ∈ presentTimes sigs, tm ≤ s.last_t) →
        (s.set_inputs sigs).last_t = s.last_t)) ∧
    ((m.set_inputs sigs).latest_t = List.foldl max m.latest_t (presentTimes sigs) ∧
      m.latest_t ≤ (m.set_inputs sigs).latest_t ∧
      ((∀ tm ∈ presentTimes sigs, tm ≤ m.latest_t) →
        (m.set_inputs sigs).latest_t = m.latest_t)) := by
  refine ⟨⟨set_inputsC_last_t s sigs, ?_, ?_⟩,
    ⟨set_inputsM_latest_t m sigs, ?_, ?_⟩⟩
  · rw [set_inputsC_last_t]; exact le_foldl_max _ _
  · intro h; rw [set_inputsC_last_t]; exact foldl_max_of_le h
  · rw [set_inputsM_latest_t]; exact le_foldl_max _ _
  · intro h; rw [set_inputsM_latest_t]; exact foldl_max_of_le h

/-- Witness for C3: a monitor whose high-water time is `3` receives a
call whose only timestamp is `2`; the high-water time stays `3`. -/
theorem high_water_monotone_witness :
    (∀ tm ∈ presentTimes (singleMap StreamName.state_b (numSig "w" 2 2)),
        tm ≤ (runC 5 1 [MOp.set (singleMap StreamName.state_a (numSig "w" 1 3))]).last_t) ∧
      ((runC 5 1 [MOp.set (singleMap StreamName.state_a (numSig "w" 1 3))]).set_inputs
          (singleMap StreamName.state_b (numSig "w" 2 2))).last_t
        = (runC 5 1 [MOp.set (singleMap StreamName.state_a (numSig "w" 1 3))]).last_t := by
  have hp : ∀ tm ∈ presentTimes (singleMap StreamName.state_b (numSig "w" 2 2)),
      tm ≤ (runC 5 1 [MOp.set (singleMap StreamName.state_a (numSig "w" 1 3))]).last_t := by
    decide
  exact ⟨hp,
    (high_water_monotone (runC 5 1 [MOp.set (singleMap StreamName.state_a (numSig "w" 1 3))])
      (MetState.init 5 1) (singleMap StreamName.state_b (numSig "w" 2 2))).1.2.2 hp⟩

/-! ## Snapshot payload extraction after an advance -/

lemma cmpSnap_advance (s : CmpState) (t : ℚ) :
    cmpSnap (s.advance_to t) =
      ⟨max t s.last_t, latestValuesC s, pairDeltas (latestValuesC s),
        (activeC s).length⟩ := by
  simp [CmpState.advance_to, cmpSnap, lookupD]

lemma metSnap_advance (s : MetState) (t : ℚ) :
    metSnap (s.advance_to t) =
      ⟨max t s.latest_t, perStreamM s, (perStreamM s).length⟩ := by
  simp [MetState.advance_to, metSnap, lookupD]

/-- C6.  For both monitor variants, on any state the snapshot produced by
`advance_to(t)` carries effective time `max(t, HighWaterTime)` in both the
payload `t` field and the output signal's timestamp; in particular, with
`t` smaller than the high-water time the snapshot is stamped with the
high-water time, not `t`. -/
theorem advance_effective_time (s : CmpState) (m : MetState) (t : ℚ) :
    (∃ sig, (s.advance_to t).outputs = [("comparison_state", sig)] ∧
      sig.time = max t s.last_t ∧ sig.value.t = max t s.last_t) ∧
    (∃ sig, (m.advance_to t).outputs = [("metrics", sig)] ∧
      sig.time = max t m.latest_t ∧ sig.value.t = max t m.latest_t) :=
  ⟨⟨_, rfl, rfl, rfl⟩, ⟨_, rfl, rfl, rfl⟩⟩

/-- C8.  `reset()` followed by `get_outputs` or `visualize` behaves
identically to a freshly constructed monitor with the same construction
parameters that has received no input: the history is empty, the snapshot
map is empty, the high-water time is zero, and `visualize` is absent --
for both monitor variants. -/
theorem reset_equals_fresh (s : CmpState) (m : MetState) :
    ((s.reset.get_outputs.1 = (CmpState.init s.max_points s.min_dt).get_outputs.1 ∧
      s.reset.visualize = (CmpState.init s.max_points s.min_dt).visualize) ∧
      (∀ k, s.reset.series k = Option.none) ∧
      (∀ k, s.reset.latest k = Option.none) ∧
      s.reset.last_t = 0 ∧ s.reset.outputs = [] ∧
      s.reset.visualize = Option.none) ∧
    ((m.reset.get_outputs.1 = (MetState.init m.max_points m.min_dt).get_outputs.1 ∧
      m.reset.visualize = (MetState.init m.max_points m.min_dt).visualize) ∧
      (∀ k, m.reset.history k = Option.none) ∧
      m.reset.latest_t = 0 ∧ m.reset.outputs = [] ∧
      m.reset.visualize = Option.none) :=
  ⟨⟨⟨rfl, rfl⟩, fun _ => rfl, fun _ => rfl, rfl, rfl, rfl⟩,
    ⟨⟨rfl, rfl⟩, fun _ => rfl, rfl, rfl, rfl⟩⟩

/-! ## get_outputs as an independent copy -/

lemma dictCopy_eq {β : Type} (d : List (String × β)) : dictCopy d = d := by
  induction d with
  | nil => rfl
  | cons kv rest ih =>
      unfold dictCopy at ih ⊢
      rw [List.foldr_cons, ih]

lemma runC_outputs_noAdvance {ops : List MOp} (mp : ℤ) (md : ℚ)
    (h : noAdvance ops = true) : (runC mp md ops).outputs = [] := by
  have gen : ∀ (l : List MOp) (s : CmpState), noAdvance l = true → s.outputs = [] →
      (l.foldl CmpState.apply s).outputs = [] := by
    intro l
    induction l with
    | nil => intro s _ hs; exact hs
    | cons op rest ih =>
        intro s hl hs
        cases op with
        | set sigs =>
            exact ih _ (by simpa [noAdvance] using hl)
              (by rw [CmpState.apply, set_inputsC_outputs]; exact hs)
        | advance t => simp [noAdvance] at hl
        | reset => exact ih _ (by simpa [noAdvance] using hl) rfl
  exact gen ops (CmpState.init mp md) h rfl

lemma runM_outputs_noAdvance {ops : List MOp} (mp : ℤ) (md : ℚ)
    (h : noAdvance ops = true) : (runM mp md ops).outputs = [] := by
  have gen : ∀ (l : List MOp) (s : MetState), noAdvance l = true → s.outputs = [] →
      (l.foldl MetState.apply s).outputs = [] := by
    intro l
    induction l with
    | nil => intro s _ hs; exact hs
    | cons op rest ih =>
        intro s hl hs
        cases op with
        | set sigs =>
            exact ih _ (by simpa [noAdvance] using hl)
              (by rw [MetState.apply, set_inputsM_outputs]; exact hs)
        | advance t => simp [noAdvance] at hl
        | reset => exact ih _ (by simpa [noAdvance] using hl) rfl
  exact gen ops (MetState.init mp md) h rfl

/-- C9.  `get_outputs()` returns a copy of the current snapshot map whose
entries equal the stored ones, it leaves the monitor state unchanged (so
later `get_outputs` calls return the same map, and nothing done to the
returned copy is visible in the stored state, mirroring `dict(...)`), and
on any trace containing no advance it returns the empty map rather than
failing -- for both monitor variants. -/
theorem get_outputs_independent_copy (s : CmpState) (m : MetState)
    (mp : ℤ) (md : ℚ) (ops : List MOp) :
    (s.get_outputs.1 = s.outputs ∧ s.get_outputs.2 = s ∧
      s.get_outputs.2.outputs = s.outputs ∧
      s.get_outputs.2.get_outputs.1 = s.outputs) ∧
    (m.get_outputs.1 = m.outputs ∧ m.get_outputs.2 = m ∧
      m.get_outputs.2.outputs = m.outputs ∧
      m.get_outputs.2.get_outputs.1 = m.outputs) ∧
    (noAdvance ops = true →
      (runC mp md ops).get_outputs.1 = [] ∧ (runM mp md ops).get_outputs.1 = []) := by
  refine ⟨⟨dictCopy_eq _, rfl, rfl, dictCopy_eq _⟩,
    ⟨dictCopy_eq _, rfl, rfl, dictCopy_eq _⟩, fun h => ⟨?_, ?_⟩⟩
  · rw [CmpState.get_outputs, dictCopy_eq, runC_outputs_noAdvance mp md h]
  · rw [MetState.get_outputs, dictCopy_eq, runM_outputs_noAdvance mp md h]

/-- Witness for C9: on the trace that ingests the comparison scenario's
inputs but never advances, `get_outputs` returns the empty map. -/
theorem get_outputs_independent_copy_witness :
    noAdvance [MOp.set cSigs] = true ∧
      (runC 10 1 [MOp.set cSigs]).get_outputs.1 = [] ∧
      (runM 10 1 [MOp.set cSigs]).get_outputs.1 = [] :=
  ⟨rfl, (get_outputs_independent_copy (CmpState.init 10 1) (MetState.init 10 1)
    10 1 [MOp.set cSigs]).2.2 rfl⟩

/-! ## Bounded history -/

lemma apply_max_pointsC (s : CmpState) (op : MOp) :
    (CmpState.apply s op).max_points = s.max_points := by
  cases op with
  | set sigs => exact set_inputsC_max_points s sigs
  | advance t => rfl
  | reset => rfl

lemma apply_max_pointsM (s : MetState) (op : MOp) :
    (MetState.apply s op).max_points = s.max_points := by
  cases op with
  | set sigs => exact set_inputsM_max_points s sigs
  | advance t => rfl
  | reset => rfl

lemma foldl_series_len {mp : ℤ} (hmp : 0 < mp) :
    ∀ (l : List MOp) (s : CmpState), s.max_points = mp →
      (∀ k, ((((s.series k).getD []).length : ℤ) ≤ mp)) →
      ∀ k, ((((l.foldl CmpState.apply s).series k).getD []).length : ℤ) ≤ mp := by
  intro l
  induction l with
  | nil => exact fun s _ h => h
  | cons op rest ih =>
      intro s hmps hinv
      refine ih _ (by rw [apply_max_pointsC, hmps]) ?_
      intro k
      cases op with
      | set sigs =>
          rw [CmpState.apply, set_inputsC_series]
          cases h : sigs k with
          | none => exact hinv k
          | some sig =>
              simp only [Option.getD_some]
              rw [hmps, trimPy_of_pos hmp, takeLastN_length]
              omega
      | advance t => rw [CmpState.apply, advC_series]; exact hinv k
      | reset =>
          simp only [CmpState.apply, CmpState.reset, Option.getD_none, List.length_nil]
          omega

lemma foldl_history_len {mp : ℤ} (hmp : 0 < mp) :
    ∀ (l : List MOp) (s : MetState), s.max_points = mp →
      (∀ k, ((((s.history k).getD []).length : ℤ) ≤ mp)) →
      ∀ k, ((((l.foldl MetState.apply s).history k).getD []).length : ℤ) ≤ mp := by
  intro l
  induction l with
  | nil => exact fun s _ h => h
  | cons op rest ih =>
      intro s hmps hinv
      refine ih _ (by rw [apply_max_pointsM, hmps]) ?_
      intro k
      cases op with
      | set sigs =>
          rw [MetState.apply, set_inputsM_history]
          cases h : sigs k with
          | none => exact hinv k
          | some sig =>
              simp only [Option.getD_some]
              rw [hmps, trimPy_of_pos hmp, takeLastN_length]
              omega
      | advance t => rw [MetState.apply, advM_history]; exact hinv k
      | reset =>
          simp only [MetState.apply, MetState.reset, Option.getD_none, List.length_nil]
          omega

lemma foldl_single_seriesC {mp : ℤ} (hmp : 0 < mp) (k : StreamName) :
    ∀ (sigs : List BioSignal) (s : CmpState), s.max_points = mp →
      ((s.series k).getD []).length ≤ mp.toNat →
      (((sigs.map (fun sg => MOp.set (singleMap k sg))).foldl CmpState.apply s).series k).getD []
        = takeLastN mp.toNat (((s.series k).getD []) ++ sigs.map obsC) := by
  intro sigs
  induction sigs with
  | nil =>
      intro s _ hcur
      simp only [List.map_nil, List.foldl_nil, List.append_nil]
      exact (takeLastN_of_le hcur).symm
  | cons sg rest ih =>
      intro s hmps hcur
      simp only [List.map_cons, List.foldl_cons]
      have hk : (s.set_inputs (singleMap k sg)).series k
          = Option.some (trimPy mp (((s.series k).getD []) ++ [obsC sg])) := by
        rw [set_inputsC_series]
        simp [singleMap, hmps]
      have hmps' : (s.set_inputs (singleMap k sg)).max_points = mp := by
        rw [set_inputsC_max_points, hmps]
      have hcur' : (((s.set_inputs (singleMap k sg)).series k).getD []).length ≤ mp.toNat := by
        rw [hk, Option.getD_some, trimPy_of_pos hmp, takeLastN_length]
        omega
      rw [CmpState.apply]
      rw [ih _ hmps' hcur', hk]
      simp only [Option.getD_some]
      rw [trimPy_of_pos hmp, takeLastN_append_takeLastN]
      simp

lemma foldl_single_historyM {mp : ℤ} (hmp : 0 < mp) (k : StreamName) :
    ∀ (sigs : List BioSignal) (s : MetState), s.max_points = mp →
      ((s.history k).getD []).length ≤ mp.toNat →
      (((sigs.map (fun sg => MOp.set (singleMap k sg))).foldl MetState.apply s).history k).getD []
        = takeLastN mp.toNat (((s.history k).getD []) ++ sigs.map obsM) := by
  intro sigs
  induction sigs with
  | nil =>
      intro s _ hcur
      simp only [List.map_nil, List.foldl_nil, List.append_nil]
      exact (takeLastN_of_le hcur).symm
  | cons sg rest ih =>
      intro s hmps hcur
      simp only [List.map_cons, List.foldl_cons]
      have hk : (s.set_inputs (singleMap k sg)).history k
          = Option.some (trimPy mp (((s.history k).getD []) ++ [obsM sg])) := by
        rw [set_inputsM_history]
        simp [singleMap, hmps]
      have hmps' : (s.set_inputs (singleMap k sg)).max_points = mp := by
        rw [set_inputsM_max_points, hmps]
      have hcur' : (((s.set_inputs (singleMap k sg)).history k).getD []).length ≤ mp.toNat := by
        rw [hk, Option.getD_some, trimPy_of_pos hmp, takeLastN_length]
        omega
      rw [MetState.apply]
      rw [ih _ hmps' hcur', hk]
      simp only [Option.getD_some]
      rw [trimPy_of_pos hmp, takeLastN_append_takeLastN]
      simp

/-- C2.  With a positive capacity `max_points`: after any trace of
operations the per-stream history of either monitor has length at most
`max_points`; and a sequence of appends to one stream leaves exactly the
most recent `max_points` projected observations in arrival order — in
particular, when the total count exceeds `max_points` the retained length
is exactly `max_points` (oldest discarded first). -/
theorem bounded_history (mp : ℤ) (md : ℚ) (ops : List MOp) (k : StreamName)
    (sigs : List BioSignal) (hmp : 0 < mp) :
    ((((runC mp md ops).series k).getD []).length : ℤ) ≤ mp ∧
    ((((runM mp md ops).history k).getD []).length : ℤ) ≤ mp ∧
    ((runC mp md (sigs.map (fun sg => MOp.set (singleMap k sg)))).series k).getD []
      = takeLastN mp.toNat (sigs.map obsC) ∧
    ((runM mp md (sigs.map (fun sg => MOp.set (singleMap k sg)))).history k).getD []
      = takeLastN mp.toNat (sigs.map obsM) ∧
    ((sigs.length : ℤ) > mp →
      ((((runC mp md (sigs.map (fun sg => MOp.set (singleMap k sg)))).series k).getD []).length : ℤ) = mp ∧
      ((((runM mp md (sigs.map (fun sg => MOp.set (singleMap k sg)))).history k).getD []).length : ℤ) = mp) := by
  have hC : ((runC mp md (sigs.map (fun sg => MOp.set (singleMap k sg)))).series k).getD []
      = takeLastN mp.toNat (sigs.map obsC) := by
    have := foldl_single_seriesC hmp k sigs (CmpState.init mp md) rfl (by simp [CmpState.init])
    simpa [runC] using this
  have hM : ((runM mp md (sigs.map (fun sg => MOp.set (singleMap k sg)))).history k).getD []
      = takeLastN mp.toNat (sigs.map obsM) := by
    have := foldl_single_historyM hmp k sigs (MetState.init mp md) rfl (by simp [MetState.init])
    simpa [runM] using this
  refine ⟨?_, ?_, hC, hM, ?_⟩
  · exact foldl_series_len hmp ops (CmpState.init mp md) rfl
      (fun j => by simp only [CmpState.init, Option.getD_none, List.length_nil]; omega) k
  · exact foldl_history_len hmp ops (MetState.init mp md) rfl
      (fun j => by simp only [MetState.init, Option.getD_none, List.length_nil]; omega) k
  · intro hlong
    constructor
    · rw [hC, takeLastN_length, List.length_map]
      omega
    · rw [hM, takeLastN_length, List.length_map]
      omega

/-- Witness for C2: three appends to `state_a` with capacity `2` retain
exactly the last two observations. -/
theorem bounded_history_witness :
    (0:ℤ) < 2 ∧
      (([numSig "w" 1 1, numSig "w" 2 2, numSig "w" 3 3].length : ℤ) > 2) ∧
      ((((runC 2 1 ([numSig "w" 1 1, numSig "w" 2 2, numSig "w" 3 3].map
          (fun sg => MOp.set (singleMap StreamName.state_a sg)))).series
          StreamName.state_a).getD []).length : ℤ) = 2 := by
  refine ⟨by decide, by decide, ?_⟩
  have h := bounded_history 2 1 [] StreamName.state_a
    [numSig "w" 1 1, numSig "w" 2 2, numSig "w" 3 3] (by decide)
  exact (h.2.2.2.2 (by decide)).1

/-! ## Pairwise deltas -/

lemma deltaLabel_inj :
    ∀ l r p q : StreamName, deltaLabel l r = deltaLabel p q → l = p ∧ r = q := by
  decide

lemma sortedInputNames_pairwise :
    List.Pairwise (fun a b : StreamName => a.idx < b.idx) sortedInputNames := by
  decide

lemma mem_sortedInputNames (k : StreamName) : k ∈ sortedInputNames := by
  cases k <;> decide

lemma activeC_pairwise (s : CmpState) :
    List.Pairwise (fun a b : StreamName => a.idx < b.idx) (activeC s) :=
  List.Pairwise.sublist (List.filter_sublist sortedInputNames)
    sortedInputNames_pairwise

lemma mem_activeC {s : CmpState} {k : StreamName} (h : (s.latest k).isSome) :
    k ∈ activeC s :=
  List.mem_filter.mpr ⟨mem_sortedInputNames k, h⟩

lemma mem_latestValuesC {s : CmpState} {k : StreamName} {e : LatestEntry}
    (h : s.latest k = Option.some e) : (k, e.scalar) ∈ latestValuesC s := by
  refine List.mem_filterMap.mpr ⟨k, mem_activeC (by rw [h]; rfl), ?_⟩
  rw [h]
  rfl

lemma latestValuesC_pairwise (s : CmpState) :
    List.Pairwise (fun p q : StreamName × ℚ => p.1.idx < q.1.idx)
      (latestValuesC s) := by
  unfold latestValuesC
  refine List.Pairwise.filterMap _ ?_ (activeC_pairwise s)
  intro a b hab u hu v hv
  rw [Option.mem_def] at hu hv
  rcases Option.map_eq_some'.mp hu with ⟨ea, _, heu⟩
  rcases Option.map_eq_some'.mp hv with ⟨eb, _, hev⟩
  rw [← heu, ← hev]
  exact hab

lemma lookupD_append_left {β : Type} {k : String} {A : List (String × β)}
    {v : β} (B : List (String × β)) (h : lookupD k A = Option.some v) :
    lookupD k (A ++ B) = Option.some v := by
  induction A with
  | nil => exact absurd h (by simp [lookupD])
  | cons p rest ih =>
      obtain ⟨k1, v1⟩ := p
      rw [List.cons_append]
      simp only [lookupD] at h ⊢
      by_cases hp : k1 = k
      · rw [if_pos hp] at h ⊢; exact h
      · rw [if_neg hp] at h ⊢; exact ih h

lemma lookupD_append_right {β : Type} {k : String} {A : List (String × β)}
    (B : List (String × β)) (h : lookupD k A = Option.none) :
    lookupD k (A ++ B) = lookupD k B := by
  induction A with
  | nil => rfl
  | cons p rest ih =>
      obtain ⟨k1, v1⟩ := p
      rw [List.cons_append]
      simp only [lookupD] at h ⊢
      by_cases hp : k1 = k
      · rw [if_pos hp] at h; exact absurd h (by simp)
      · rw [if_neg hp] at h ⊢; exact ih h

lemma lookupD_eq_none {β : Type} {k : String} {A : List (String × β)}
    (h : ∀ p ∈ A, p.1 ≠ k) : lookupD k A = Option.none := by
  induction A with
  | nil => rfl
  | cons p rest ih =>
      obtain ⟨k1, v1⟩ := p
      simp only [lookupD]
      rw [if_neg (h (k1, v1) (List.mem_cons_self _ rest))]
      exact ih (fun q hq => h q (List.mem_cons_of_mem _ hq))

lemma lookupD_some_mem {β : Type} {k : String} {A : List (String × β)} {v : β}
    (h : lookupD k A = Option.some v) : (k, v) ∈ A := by
  induction A with
  | nil => exact absurd h (by simp [lookupD])
  | cons p rest ih =>
      obtain ⟨k1, v1⟩ := p
      simp only [lookupD] at h
      by_cases hp : k1 = k
      · rw [if_pos hp] at h
        simp only [Option.some_inj] at h
        exact List.mem_cons.mpr (Or.inl (by rw [hp, h]))
      · rw [if_neg hp] at h
        exact List.mem_cons_of_mem _ (ih h)

lemma lookup_mapped_some {l : StreamName} {x : ℚ} :
    ∀ {rest : List (StreamName × ℚ)}, (rest.map Prod.fst).Nodup →
      ∀ {r : StreamName} {y : ℚ}, (r, y) ∈ rest →
      lookupD (deltaLabel l r) (rest.map (fun p => (deltaLabel l p.1, x - p.2)))
        = Option.some (x - y) := by
  intro rest
  induction rest with
  | nil => intro _ r y hm; exact absurd hm (by simp)
  | cons q tail ih =>
      intro hnd r y hm
      simp only [List.map_cons, List.nodup_cons] at hnd
      simp only [List.map_cons]
      unfold lookupD
      by_cases hq : q.1 = r
      · have hqr : q = (r, y) := by
          rcases List.mem_cons.mp hm with h | h
          · exact h.symm
          · exact absurd (by rw [hq]; exact List.mem_map_of_mem Prod.fst h) hnd.1
        subst hqr
        rw [if_pos rfl]
      · rw [if_neg (fun hc => hq (deltaLabel_inj l q.1 l r hc).2)]
        have hm' : (r, y) ∈ tail := by
          rcases List.mem_cons.mp hm with h | h
          · exact absurd (congrArg Prod.fst h).symm hq
          · exact h
        exact ih hnd.2 hm'

lemma pairwise_keys_nodup {lv : List (StreamName × ℚ)}
    (h : List.Pairwise (fun p q : StreamName × ℚ => p.1.idx < q.1.idx) lv) :
    (lv.map Prod.fst).Nodup :=
  List.Pairwise.map Prod.fst
    (fun a b hab heq => by rw [heq] at hab; exact lt_irrefl _ hab) h

lemma pairDeltas_entry_shape {lv : List (StreamName × ℚ)}
    (hsorted : List.Pairwise (fun p q : StreamName × ℚ => p.1.idx < q.1.idx) lv) :
    ∀ e ∈ pairDeltas lv, ∃ p q, p ∈ lv ∧ q ∈ lv ∧ p.1.idx < q.1.idx ∧
      e.1 = deltaLabel p.1 q.1 := by
  induction lv with
  | nil => intro e he; exact absurd he (by simp [pairDeltas])
  | cons hd tail ih =>
      rcases List.pairwise_cons.mp hsorted with ⟨hhead, htail⟩
      intro e he
      unfold pairDeltas at he
      rcases List.mem_append.mp he with h | h
      · rcases List.mem_map.mp h with ⟨p, hp, hep⟩
        exact ⟨hd, p, List.mem_cons_self hd tail, List.mem_cons_of_mem hd hp,
          hhead p hp, by rw [← hep]⟩
      · rcases ih htail e h with ⟨p, q, hp, hq, hlt, he⟩
        exact ⟨p, q, List.mem_cons_of_mem hd hp, List.mem_cons_of_mem hd hq,
          hlt, he⟩

lemma pairDeltas_lookup_some {lv : List (StreamName × ℚ)}
    (hsorted : List.Pairwise (fun p q : StreamName × ℚ => p.1.idx < q.1.idx) lv)
    {l r : StreamName} {x y : ℚ} (hl : (l, x) ∈ lv) (hr : (r, y) ∈ lv)
    (hlr : l.idx < r.idx) :
    lookupD (deltaLabel l r) (pairDeltas lv) = Option.some (x - y) := by
  induction lv with
  | nil => exact absurd hl (by simp)
  | cons hd tail ih =>
      rcases List.pairwise_cons.mp hsorted with ⟨hhead, htail⟩
      unfold pairDeltas
      rcases List.mem_cons.mp hl with hl1 | hl1
      · have hr1 : (r, y) ∈ tail := by
          rcases List.mem_cons.mp hr with h | h
          · exfalso
            have hlr' : l = r := congrArg Prod.fst (hl1.trans h.symm)
            rw [hlr'] at hlr
            exact lt_irrefl _ hlr
          · exact h
        rw [← hl1]
        exact lookupD_append_left _
          (lookup_mapped_some (pairwise_keys_nodup htail) hr1)
      · have hlhd : hd.1.idx < l.idx := hhead (l, x) hl1
        have hr1 : (r, y) ∈ tail := by
          rcases List.mem_cons.mp hr with h | h
          · exfalso
            have hrhd : r = hd.1 := congrArg Prod.fst h
            rw [hrhd] at hlr
            exact lt_irrefl _ (lt_trans hlr hlhd)
          · exact h
        have hnone : lookupD (deltaLabel l r)
            (tail.map (fun p => (deltaLabel hd.1 p.1, hd.2 - p.2)))
              = Option.none := by
          refine lookupD_eq_none ?_
          intro p hp
          rcases List.mem_map.mp hp with ⟨q, hq, hpq⟩
          rw [← hpq]
          intro hc
          rcases deltaLabel_inj hd.1 q.1 l r hc with ⟨hc1, _⟩
          rw [← hc1] at hlhd
          exact absurd hlhd (lt_irrefl _)
        rw [lookupD_append_right _ hnone]
        exact ih htail hl1 hr1

lemma pairDeltas_lookup_reverse {lv : List (StreamName × ℚ)}
    (hsorted : List.Pairwise (fun p q : StreamName × ℚ => p.1.idx < q.1.idx) lv)
    {l r : StreamName} (hlr : l.idx < r.idx) :
    lookupD (deltaLabel r l) (pairDeltas lv) = Option.none := by
  cases hc : lookupD (deltaLabel r l) (pairDeltas lv) with
  | none => rfl
  | some v =>
      rcases pairDeltas_entry_shape hsorted _ (lookupD_some_mem hc)
        with ⟨p, q, _, _, hlt, he⟩
      rcases deltaLabel_inj r l p.1 q.1 he with ⟨h1, h2⟩
      rw [← h1, ← h2] at hlt
      exact absurd (lt_trans hlr hlt) (lt_irrefl _)

lemma scenario_latest_a :
    (runC 10 1 [MOp.set cSigs]).latest StreamName.state_a
      = Option.some ⟨1, 15, "a"⟩ := by
  show ((CmpState.init 10 1).set_inputs cSigs).latest StreamName.state_a = _
  rw [set_inputsC_latest]
  norm_num [cSigs, cSigA, scalar_projection, pyIsNumber, pyToFloat, listMean]

lemma scenario_latest_b :
    (runC 10 1 [MOp.set cSigs]).latest StreamName.state_b
      = Option.some ⟨1, 6, "b"⟩ := by
  show ((CmpState.init 10 1).set_inputs cSigs).latest StreamName.state_b = _
  have hb : cSigs StreamName.state_b = Option.some cSigB := rfl
  rw [set_inputsC_latest, hb]
  norm_num [cSigB, scalar_projection, pyIsNumber, pyToFloat, listMean]

lemma scenario_latest_c :
    (runC 10 1 [MOp.set cSigs]).latest StreamName.state_c = Option.none := by
  show ((CmpState.init 10 1).set_inputs cSigs).latest StreamName.state_c = _
  rw [set_inputsC_latest]
  simp [cSigs, CmpState.init]

lemma scenario_latest_d :
    (runC 10 1 [MOp.set cSigs]).latest StreamName.state_d = Option.none := by
  show ((CmpState.init 10 1).set_inputs cSigs).latest StreamName.state_d = _
  rw [set_inputsC_latest]
  simp [cSigs, CmpState.init]

lemma scenario_latest_values :
    latestValuesC (runC 10 1 [MOp.set cSigs])
      = [(StreamName.state_a, 15), (StreamName.state_b, 6)] := by
  rw [latestValuesC, activeC, sortedInputNames]
  simp [scenario_latest_a, scenario_latest_b, scenario_latest_c,
    scenario_latest_d]

/-- C4.  After `advance_to(t)` on the comparison monitor (from any state):
for every pair of active streams `(l, r)` with `l` strictly before `r` in
the lexical order of the slot names (`StreamName.idx` enumerates that
order), `pairwise_deltas` contains exactly one entry for the pair, keyed
`"{l}_minus_{r}"` with value `latest[l] - latest[r]`, and no entry for the
reversed direction; `n_streams` is the number of active streams; with zero
active streams both maps are empty and `n_streams = 0`.  The spec's
scenario (`state_a = {x:10, y:20}`, `state_b = {x:4, z:8}` at `t = 1.0`,
advanced to `1.0`) yields `latest_values = {state_a: 15, state_b: 6}`,
`pairwise_deltas = {state_a_minus_state_b: 9}`, `n_streams = 2`. -/
theorem pairwise_deltas_correct (s : CmpState) (t : ℚ) :
    (∀ l r el er, s.latest l = Option.some el → s.latest r = Option.some er →
      l.idx < r.idx →
      lookupD (deltaLabel l r) (cmpSnap (s.advance_to t)).pairwise_deltas
          = Option.some (el.scalar - er.scalar) ∧
        lookupD (deltaLabel r l) (cmpSnap (s.advance_to t)).pairwise_deltas
          = Option.none) ∧
    (cmpSnap (s.advance_to t)).n_streams = (activeC s).length ∧
    ((∀ k, s.latest k = Option.none) →
      (cmpSnap (s.advance_to t)).latest_values = [] ∧
      (cmpSnap (s.advance_to t)).pairwise_deltas = [] ∧
      (cmpSnap (s.advance_to t)).n_streams = 0) ∧
    ((cmpSnap ((runC 10 1 [MOp.set cSigs]).advance_to 1)).latest_values
        = [(StreamName.state_a, 15), (StreamName.state_b, 6)] ∧
      (cmpSnap ((runC 10 1 [MOp.set cSigs]).advance_to 1)).pairwise_deltas
        = [("state_a_minus_state_b", 9)] ∧
      (cmpSnap ((runC 10 1 [MOp.set cSigs]).advance_to 1)).n_streams = 2) := by
  refine ⟨?_, ?_, ?_, ?_, ?_, ?_⟩
  · intro l r el er hel her hlr
    rw [cmpSnap_advance]
    exact ⟨pairDeltas_lookup_some (latestValuesC_pairwise s)
        (mem_latestValuesC hel) (mem_latestValuesC her) hlr,
      pairDeltas_lookup_reverse (latestValuesC_pairwise s) hlr⟩
  · rw [cmpSnap_advance]
  · intro h
    have hact : activeC s = [] := by
      rw [activeC, sortedInputNames]
      simp [h]
    have hlv : latestValuesC s = [] := by
      rw [latestValuesC, hact]
      rfl
    rw [cmpSnap_advance]
    exact ⟨hlv, by rw [hlv]; rfl, by rw [hact]; rfl⟩
  · rw [cmpSnap_advance, scenario_latest_values]
  · rw [cmpSnap_advance, scenario_latest_values]
    norm_num [pairDeltas, deltaLabel, StreamName.str]
    rfl
  · rw [cmpSnap_advance, activeC, sortedInputNames]
    simp [scenario_latest_a, scenario_latest_b, scenario_latest_c,
      scenario_latest_d]

/-- Witness for C4: a state with `state_a` at scalar `15` and `state_b`
at scalar `6`; the delta map after an advance holds exactly
`state_a_minus_state_b = 9`. -/
theorem pairwise_deltas_correct_witness :
    (CmpState.mk 10 1
        (fun k => if k = StreamName.state_a then Option.some ⟨1, 15, "a"⟩
          else if k = StreamName.state_b then Option.some ⟨1, 6, "b"⟩
          else Option.none)
        (fun _ => Option.none) 1 [] Option.none).latest StreamName.state_a
      = Option.some ⟨1, 15, "a"⟩ ∧
    (CmpState.mk 10 1
        (fun k => if k = StreamName.state_a then Option.some ⟨1, 15, "a"⟩
          else if k = StreamName.state_b then Option.some ⟨1, 6, "b"⟩
          else Option.none)
        (fun _ => Option.none) 1 [] Option.none).latest StreamName.state_b
      = Option.some ⟨1, 6, "b"⟩ ∧
    StreamName.state_a.idx < StreamName.state_b.idx ∧
    lookupD (deltaLabel StreamName.state_a StreamName.state_b)
      (cmpSnap ((CmpState.mk 10 1
        (fun k => if k = StreamName.state_a then Option.some ⟨1, 15, "a"⟩
          else if k = StreamName.state_b then Option.some ⟨1, 6, "b"⟩
          else Option.none)
        (fun _ => Option.none) 1 [] Option.none).advance_to 2)).pairwise_deltas
      = Option.some (15 - 6) := by
  refine ⟨by decide, by decide, by decide, ?_⟩
  exact ((pairwise_deltas_correct (CmpState.mk 10 1
    (fun k => if k = StreamName.state_a then Option.some ⟨1, 15, "a"⟩
      else if k = StreamName.state_b then Option.some ⟨1, 6, "b"⟩
      else Option.none)
    (fun _ => Option.none) 1 [] Option.none) 2).1 StreamName.state_a
    StreamName.state_b ⟨1, 15, "a"⟩ ⟨1, 6, "b"⟩ (by decide) (by decide)
    (by decide)).1

/-! ## Stream metrics -/

lemma apply_history_isSome (s : MetState) (op : MOp) (k : StreamName) :
    ((MetState.apply s op).history k).isSome =
      match op with
      | MOp.set sigs => (s.history k).isSome || (sigs k).isSome
      | MOp.advance _ => (s.history k).isSome
      | MOp.reset => false := by
  cases op with
  | set sigs =>
      rw [MetState.apply, set_inputsM_history]
      cases h : sigs k <;> simp [h]
  | advance t => rfl
  | reset => rfl

lemma foldl_history_isSome (k : StreamName) :
    ∀ (l : List MOp) (s : MetState),
      (((l.foldl MetState.apply s).history k).isSome) =
        l.foldl
          (fun acc op =>
            match op with
            | MOp.set sigs => acc || (sigs k).isSome
            | MOp.advance _ => acc
            | MOp.reset => false)
          ((s.history k).isSome) := by
  intro l
  induction l with
  | nil => intro s; rfl
  | cons op rest ih =>
      intro s
      rw [List.foldl_cons, List.foldl_cons, ih, apply_history_isSome]

lemma runM_history_isSome (mp : ℤ) (md : ℚ) (ops : List MOp) (k : StreamName) :
    ((runM mp md ops).history k).isSome = receivedSince ops k :=
  foldl_history_isSome k ops (MetState.init mp md)

lemma apply_series_isSome (s : CmpState) (op : MOp) (k : StreamName) :
    ((CmpState.apply s op).series k).isSome =
      match op with
      | MOp.set sigs => (s.series k).isSome || (sigs k).isSome
      | MOp.advance _ => (s.series k).isSome
      | MOp.reset => false := by
  cases op with
  | set sigs =>
      rw [CmpState.apply, set_inputsC_series]
      cases h : sigs k <;> simp [h]
  | advance t => rfl
  | reset => rfl

lemma foldl_series_isSome (k : StreamName) :
    ∀ (l : List MOp) (s : CmpState),
      (((l.foldl CmpState.apply s).series k).isSome) =
        l.foldl
          (fun acc op =>
            match op with
            | MOp.set sigs => acc || (sigs k).isSome
            | MOp.advance _ => acc
            | MOp.reset => false)
          ((s.series k).isSome) := by
  intro l
  induction l with
  | nil => intro s; rfl
  | cons op rest ih =>
      intro s
      rw [List.foldl_cons, List.foldl_cons, ih, apply_series_isSome]

lemma runC_series_isSome (mp : ℤ) (md : ℚ) (ops : List MOp) (k : StreamName) :
    ((runC mp md ops).series k).isSome = receivedSince ops k :=
  foldl_series_isSome k ops (CmpState.init mp md)

lemma runM_history_ne_nil {mp : ℤ} (md : ℚ) (hmp : 0 < mp) (ops : List MOp) :
    ∀ k v, (runM mp md ops).history k = Option.some v → v ≠ [] := by
  have gen : ∀ (l : List MOp) (s : MetState), s.max_points = mp →
      (∀ k v, s.history k = Option.some v → v ≠ []) →
      ∀ k v, (l.foldl MetState.apply s).history k = Option.some v → v ≠ [] := by
    intro l
    induction l with
    | nil => exact fun s _ h => h
    | cons op rest ih =>
        intro s hmps hinv
        refine ih _ (by rw [apply_max_pointsM, hmps]) ?_
        intro k v hv
        cases op with
        | set sigs =>
            rw [MetState.apply, set_inputsM_history] at hv
            cases h : sigs k with
            | none => rw [h] at hv; exact hinv k v hv
            | some sig =>
                rw [h] at hv
                simp only [Option.some_inj] at hv
                rw [← hv, hmps, trimPy_of_pos hmp]
                refine List.ne_nil_of_length_pos ?_
                rw [takeLastN_length, List.length_append]
                simp only [List.length_cons, List.length_nil]
                omega
        | advance t => rw [MetState.apply, advM_history] at hv; exact hinv k v hv
        | reset => simp [MetState.apply, MetState.reset] at hv
  exact gen ops (MetState.init mp md) rfl (fun k v hv => by simp [MetState.init] at hv)

lemma lookupS_filterMap_mem {β : Type} (g : StreamName → Option β) :
    ∀ (l : List StreamName), l.Nodup → ∀ k ∈ l,
      lookupS k (l.filterMap (fun j => (g j).map (fun v => (j, v)))) = g k := by
  have habs : ∀ (l : List StreamName) (k : StreamName), k ∉ l →
      lookupS k (l.filterMap (fun j => (g j).map (fun v => (j, v))))
        = Option.none := by
    intro l
    induction l with
    | nil => intro k _; rfl
    | cons j tail ih =>
        intro k hk
        rw [List.filterMap_cons]
        cases hj : g j with
        | none => exact ih k (fun hc => hk (List.mem_cons_of_mem j hc))
        | some v =>
            simp only [Option.map_some']
            unfold lookupS
            rw [if_neg (fun hc => hk (by rw [← hc]; exact List.mem_cons_self j tail))]
            exact ih k (fun hc => hk (List.mem_cons_of_mem j hc))
  intro l
  induction l with
  | nil => intro _ k hk; exact absurd hk (by simp)
  | cons j tail ih =>
      intro hnd k hk
      rcases List.nodup_cons.mp hnd with ⟨hjt, hnt⟩
      rw [List.filterMap_cons]
      by_cases hkj : k = j
      · subst hkj
        cases hj : g k with
        | none => exact habs tail k hjt
        | some v =>
            simp only [Option.map_some']
            unfold lookupS
            rw [if_pos rfl]
      · have hk' : k ∈ tail := by
          rcases List.mem_cons.mp hk with h | h
          · exact absurd h hkj
          · exact h
        cases hj : g j with
        | none => exact ih hnt k hk'
        | some v =>
            simp only [Option.map_some']
            unfold lookupS
            rw [if_neg (fun hc => hkj hc.symm)]
            exact ih hnt k hk'

lemma filterMap_keys_filter {β : Type} (g : StreamName → Option β) :
    ∀ (l : List StreamName),
      ((l.filterMap (fun j => (g j).map (fun v => (j, v)))).map Prod.fst)
        = l.filter (fun j => (g j).isSome) := by
  intro l
  induction l with
  | nil => rfl
  | cons j tail ih =>
      rw [List.filterMap_cons]
      cases hj : g j with
      | none => rw [List.filter_cons_of_neg (by simp [hj])]; exact ih
      | some v =>
          simp only [Option.map_some']
          rw [List.map_cons, List.filter_cons_of_pos (by simp [hj]), ih]

lemma perStreamM_eq (s : MetState) :
    perStreamM s = sortedInputNames.filterMap
      (fun j => ((s.history j).map summary).map (fun v => (j, v))) := by
  unfold perStreamM
  congr 1
  funext j
  rw [Option.map_map]
  rfl

lemma sortedInputNames_nodup : sortedInputNames.Nodup := by decide

lemma lookupS_perStreamM (s : MetState) (k : StreamName) :
    lookupS k (perStreamM s) = (s.history k).map summary := by
  rw [perStreamM_eq]
  exact lookupS_filterMap_mem (fun j => (s.history j).map summary)
    sortedInputNames sortedInputNames_nodup k (mem_sortedInputNames k)

lemma perStreamM_keys (s : MetState) :
    (perStreamM s).map Prod.fst
      = sortedInputNames.filter (fun j => (s.history j).isSome) := by
  rw [perStreamM_eq, filterMap_keys_filter]
  congr 1
  funext j
  cases s.history j <;> rfl

lemma mscen_a :
    (runM 10 1 [MOp.set mSigs1, MOp.set mSigs2]).history StreamName.state_a
      = Option.some [2, 4] := by
  show (((MetState.init 10 1).set_inputs mSigs1).set_inputs mSigs2).history
    StreamName.state_a = _
  have h1 : ((MetState.init 10 1).set_inputs mSigs1).history StreamName.state_a
      = Option.some [2] := by
    have ha : mSigs1 StreamName.state_a = Option.some mSigA1 := rfl
    rw [set_inputsM_history, ha]
    norm_num [MetState.init, obsM, extract_scalar, mSigA1, pyIsNumber,
      pyToFloat, listMean, trimPy]
  have hmp1 : ((MetState.init 10 1).set_inputs mSigs1).max_points = 10 :=
    set_inputsM_max_points _ _
  have ha2 : mSigs2 StreamName.state_a = Option.some mSigA2 := rfl
  rw [set_inputsM_history, ha2, h1, hmp1]
  norm_num [obsM, extract_scalar, mSigA2, pyIsNumber, pyToFloat, listMean,
    trimPy]

lemma mscen_b :
    (runM 10 1 [MOp.set mSigs1, MOp.set mSigs2]).history StreamName.state_b
      = Option.some [5] := by
  show (((MetState.init 10 1).set_inputs mSigs1).set_inputs mSigs2).history
    StreamName.state_b = _
  have hb2 : mSigs2 StreamName.state_b = Option.none := rfl
  rw [set_inputsM_history, hb2]
  have hb : mSigs1 StreamName.state_b = Option.some mSigB := rfl
  rw [set_inputsM_history, hb]
  norm_num [MetState.init, obsM, extract_scalar, mSigB, trimPy]

lemma mscen_c :
    (runM 10 1 [MOp.set mSigs1, MOp.set mSigs2]).history StreamName.state_c
      = Option.none := by
  show (((MetState.init 10 1).set_inputs mSigs1).set_inputs mSigs2).history
    StreamName.state_c = _
  rw [set_inputsM_history]
  show ((MetState.init 10 1).set_inputs mSigs1).history StreamName.state_c = _
  rw [set_inputsM_history]
  rfl

lemma mscen_d :
    (runM 10 1 [MOp.set mSigs1, MOp.set mSigs2]).history StreamName.state_d
      = Option.none := by
  show (((MetState.init 10 1).set_inputs mSigs1).set_inputs mSigs2).history
    StreamName.state_d = _
  rw [set_inputsM_history]
  show ((MetState.init 10 1).set_inputs mSigs1).history StreamName.state_d = _
  rw [set_inputsM_history]
  rfl

lemma mscen_metrics :
    perStreamM (runM 10 1 [MOp.set mSigs1, MOp.set mSigs2])
      = [(StreamName.state_a, ⟨2, 3, 2, 4⟩), (StreamName.state_b, ⟨1, 5, 5, 5⟩)] := by
  rw [perStreamM, sortedInputNames]
  simp only [List.filterMap_cons, List.filterMap_nil, mscen_a, mscen_b,
    mscen_c, mscen_d, Option.map_some', Option.map_none']
  norm_num [summary, Summary.mk.injEq]

/-- C5.  After `advance_to(t)` on the metrics monitor: with positive
capacity, `stream_metrics` contains exactly the streams that received at
least one update since the last reset (a stream that never received data
is omitted, not zeroed); each present stream maps to the summary of its
retained window, whose fields are the count, the arithmetic mean, the
minimum and the maximum of that (necessarily non-empty) window; and
`stream_count` is the number of emitted streams.  The spec's scenario
(`state_a = {x:1, y:3}` then `{x:3, y:5}`, `state_b = 5.0`, advanced to
`2.0`) yields `state_a ↦ (2, 3, 2, 4)` and `state_b ↦ (1, 5, 5, 5)`. -/
theorem stream_metrics_correct (mp : ℤ) (md : ℚ) (ops : List MOp) (t : ℚ)
    (hmp : 0 < mp) :
    ((metSnap ((runM mp md ops).advance_to t)).stream_metrics.map Prod.fst
        = sortedInputNames.filter (fun j => receivedSince ops j)) ∧
    (∀ k v, (runM mp md ops).history k = Option.some v →
        lookupS k (metSnap ((runM mp md ops).advance_to t)).stream_metrics
            = Option.some (summary v) ∧
          v ≠ [] ∧
          (∀ h tl, v = h :: tl →
            summary v = ⟨((h :: tl).length : ℚ),
              (h :: tl).sum / ((h :: tl).length : ℚ),
              tl.foldl min h, tl.foldl max h⟩)) ∧
    (∀ k, (runM mp md ops).history k = Option.none →
        lookupS k (metSnap ((runM mp md ops).advance_to t)).stream_metrics
          = Option.none) ∧
    ((metSnap ((runM mp md ops).advance_to t)).stream_count
      = (metSnap ((runM mp md ops).advance_to t)).stream_metrics.length) ∧
    ((metSnap ((runM 10 1 [MOp.set mSigs1, MOp.set mSigs2]).advance_to 2)).stream_metrics
      = [(StreamName.state_a, ⟨2, 3, 2, 4⟩), (StreamName.state_b, ⟨1, 5, 5, 5⟩)]) := by
  refine ⟨?_, ?_, ?_, ?_, ?_⟩
  · rw [metSnap_advance]
    show (perStreamM (runM mp md ops)).map Prod.fst = _
    rw [perStreamM_keys]
    exact List.filter_congr
      (fun j _ => runM_history_isSome mp md ops j)
  · intro k v hv
    refine ⟨?_, runM_history_ne_nil md hmp ops k v hv, ?_⟩
    · rw [metSnap_advance]
      show lookupS k (perStreamM (runM mp md ops)) = _
      rw [lookupS_perStreamM, hv]
      rfl
    · intro h tl hvh
      rw [hvh]
      rfl
  · intro k hv
    rw [metSnap_advance]
    show lookupS k (perStreamM (runM mp md ops)) = _
    rw [lookupS_perStreamM, hv]
    rfl
  · rw [metSnap_advance]
  · rw [metSnap_advance]
    exact mscen_metrics

/-- Witness for C5: on the metrics scenario's trace, `state_a` has
history `[2, 4]`, and the snapshot maps it to the summary of that
window. -/
theorem stream_metrics_correct_witness :
    (0 : ℤ) < 10 ∧
      (runM 10 1 [MOp.set mSigs1, MOp.set mSigs2]).history StreamName.state_a
        = Option.some [2, 4] ∧
      lookupS StreamName.state_a
          (metSnap ((runM 10 1 [MOp.set mSigs1, MOp.set mSigs2]).advance_to 2)).stream_metrics
        = Option.some (summary [2, 4]) := by
  refine ⟨by decide, mscen_a, ?_⟩
  exact ((stream_metrics_correct 10 1 [MOp.set mSigs1, MOp.set mSigs2] 2
    (by decide)).2.1 StreamName.state_a [2, 4] mscen_a).1

/-! ## Visualization -/

lemma itemsC_isEmpty_iff (s : CmpState) :
    (seriesItemsC s).isEmpty = true ↔ ∀ k, (s.series k).isSome = false := by
  rw [List.isEmpty_iff]
  have hkeys : (seriesItemsC s).map Prod.fst
      = sortedInputNames.filter (fun j => (s.series j).isSome) :=
    filterMap_keys_filter s.series sortedInputNames
  constructor
  · intro h k
    rw [h] at hkeys
    have := (List.filter_eq_nil_iff.mp hkeys.symm) k (mem_sortedInputNames k)
    exact Bool.not_eq_true _ ▸ (by simpa using this)
  · intro h
    refine List.filterMap_eq_nil_iff.mpr ?_
    intro k _
    cases hk : s.series k with
    | none => rfl
    | some v =>
        have hks := h k
        rw [hk] at hks
        simp at hks

lemma itemsM_isEmpty_iff (s : MetState) :
    (histItemsM s).isEmpty = true ↔ ∀ k, (s.history k).isSome = false := by
  rw [List.isEmpty_iff]
  have hkeys : (histItemsM s).map Prod.fst
      = sortedInputNames.filter (fun j => (s.history j).isSome) :=
    filterMap_keys_filter s.history sortedInputNames
  constructor
  · intro h k
    rw [h] at hkeys
    have := (List.filter_eq_nil_iff.mp hkeys.symm) k (mem_sortedInputNames k)
    exact Bool.not_eq_true _ ▸ (by simpa using this)
  · intro h
    refine List.filterMap_eq_nil_iff.mpr ?_
    intro k _
    cases hk : s.history k with
    | none => rfl
    | some v =>
        have hks := h k
        rw [hk] at hks
        simp at hks

lemma visualizeC_none_iff (s : CmpState) :
    s.visualize = Option.none ↔ ∀ k, (s.series k).isSome = false := by
  rw [← itemsC_isEmpty_iff]
  show (if (seriesItemsC s).isEmpty then Option.none else _) = Option.none ↔ _
  by_cases h : (seriesItemsC s).isEmpty
  · rw [if_pos h]
    simp [h]
  · rw [if_neg h]
    simp [h]

lemma visualizeM_none_iff (s : MetState) :
    s.visualize = Option.none ↔ ∀ k, (s.history k).isSome = false := by
  rw [← itemsM_isEmpty_iff]
  show (if (histItemsM s).isEmpty then Option.none else _) = Option.none ↔ _
  by_cases h : (histItemsM s).isEmpty
  · rw [if_pos h]
    simp [h]
  · rw [if_neg h]
    simp [h]

/-- C7.  For both monitors, `visualize()` is absent exactly when no stream
has received data since construction or the last reset; otherwise it is
exactly two render blocks, first one tagged `"timeseries"` (one named
series per stream with data, in lexical order) and then one tagged
`"table"`, whose rows are computed from the currently stored snapshot's
aggregate (looked up in the output map, so they are empty when no advance
has happened) with numeric cells rendered through the 6-decimal fixed
formatter. -/
theorem visualize_exactly_two_blocks (mp : ℤ) (md : ℚ) (ops : List MOp) :
    ((runC mp md ops).visualize = Option.none ↔
      ∀ k, receivedSince ops k = false) ∧
    ((runM mp md ops).visualize = Option.none ↔
      ∀ k, receivedSince ops k = false) ∧
    (∀ s : CmpState, (seriesItemsC s).isEmpty = false →
      s.visualize = Option.some
        [{ render := "timeseries"
           data := RenderData.timeseries "State Stream Comparison"
             ((seriesItemsC s).map (fun p => (p.1.str, p.2)))
           description := "Scalar projections for each incoming state stream." },
         { render := "table"
           data := RenderData.table ["Stream", "Latest Scalar"]
             ((sortedItems
               (match lookupD "comparison_state" s.outputs with
                | Option.some sig => sig.value.latest_values
                | Option.none => [])).map
                 (fun p => [p.1.str, formatFixed6 p.2]))
           description := "Latest scalar value per state input stream." }]) ∧
    (∀ s : MetState, (histItemsM s).isEmpty = false →
      s.visualize = Option.some
        [{ render := "timeseries"
           data := RenderData.timeseries "State Stream Metrics (Scalar History)"
             ((histItemsM s).map (fun p =>
               (p.1.str, p.2.enum.map (fun iv => ((iv.1 : ℚ), iv.2)))))
           description := "Scalar history per stream for quick trend checks." },
         { render := "table"
           data := RenderData.table ["Stream", "Count", "Mean", "Min", "Max"]
             ((sortedItems
               (match lookupD "metrics" s.outputs with
                | Option.some sig => sig.value.stream_metrics
                | Option.none => [])).map
                 (fun p => [p.1.str, toString (pyInt p.2.count),
                   formatFixed6 p.2.mean, formatFixed6 p.2.min,
                   formatFixed6 p.2.max]))
           description := "Descriptive metrics for each stream." }]) ∧
    (∀ s : CmpState, (seriesItemsC s).isEmpty = false → s.outputs = [] →
      s.visualize = Option.some
        [{ render := "timeseries"
           data := RenderData.timeseries "State Stream Comparison"
             ((seriesItemsC s).map (fun p => (p.1.str, p.2)))
           description := "Scalar projections for each incoming state stream." },
         { render := "table"
           data := RenderData.table ["Stream", "Latest Scalar"] []
           description := "Latest scalar value per state input stream." }]) ∧
    (∀ s : MetState, (histItemsM s).isEmpty = false → s.outputs = [] →
      s.visualize = Option.some
        [{ render := "timeseries"
           data := RenderData.timeseries "State Stream Metrics (Scalar History)"
             ((histItemsM s).map (fun p =>
               (p.1.str, p.2.enum.map (fun iv => ((iv.1 : ℚ), iv.2)))))
           description := "Scalar history per stream for quick trend checks." },
         { render := "table"
           data := RenderData.table ["Stream", "Count", "Mean", "Min", "Max"] []
           description := "Descriptive metrics for each stream." }]) := by
  have hA2 : ∀ s : CmpState, (seriesItemsC s).isEmpty = false →
      s.visualize = Option.some
        [{ render := "timeseries"
           data := RenderData.timeseries "State Stream Comparison"
             ((seriesItemsC s).map (fun p => (p.1.str, p.2)))
           description := "Scalar projections for each incoming state stream." },
         { render := "table"
           data := RenderData.table ["Stream", "Latest Scalar"]
             ((sortedItems
               (match lookupD "comparison_state" s.outputs with
                | Option.some sig => sig.value.latest_values
                | Option.none => [])).map
                 (fun p => [p.1.str, formatFixed6 p.2]))
           description := "Latest scalar value per state input stream." }] := by
    intro s h
    show (if (seriesItemsC s).isEmpty then Option.none else _) = _
    rw [if_neg (by simp [h])]
  have hB2 : ∀ s : MetState, (histItemsM s).isEmpty = false →
      s.visualize = Option.some
        [{ render := "timeseries"
           data := RenderData.timeseries "State Stream Metrics (Scalar History)"
             ((histItemsM s).map (fun p =>
               (p.1.str, p.2.enum.map (fun iv => ((iv.1 : ℚ), iv.2)))))
           description := "Scalar history per stream for quick trend checks." },
         { render := "table"
           data := RenderData.table ["Stream", "Count", "Mean", "Min", "Max"]
             ((sortedItems
               (match lookupD "metrics" s.outputs with
                | Option.some sig => sig.value.stream_metrics
                | Option.none => [])).map
                 (fun p => [p.1.str, toString (pyInt p.2.count),
                   formatFixed6 p.2.mean, formatFixed6 p.2.min,
                   formatFixed6 p.2.max]))
           description := "Descriptive metrics for each stream." }] := by
    intro s h
    show (if (histItemsM s).isEmpty then Option.none else _) = _
    rw [if_neg (by simp [h])]
  refine ⟨?_, ?_, hA2, hB2, ?_, ?_⟩
  · rw [visualizeC_none_iff]
    exact forall_congr' (fun k => by rw [runC_series_isSome])
  · rw [visualizeM_none_iff]
    exact forall_congr' (fun k => by rw [runM_history_isSome])
  · intro s h houts
    rw [hA2 s h, houts]
    rfl
  · intro s h houts
    rw [hB2 s h, houts]
    rfl

/-- Witness for C7: a monitor state holding one recorded point for
`state_a` and no snapshot yet renders two blocks, a time series followed
by a table with no rows. -/
theorem visualize_exactly_two_blocks_witness :
    (seriesItemsC (CmpState.mk 10 1 (fun _ => Option.none)
        (fun k => if k = StreamName.state_a then Option.some [(1, 2)] else Option.none)
        1 [] Option.none)).isEmpty = false ∧
    (CmpState.mk 10 1 (fun _ => Option.none)
        (fun k => if k = StreamName.state_a then Option.some [(1, 2)] else Option.none)
        1 [] Option.none).outputs = [] ∧
    (CmpState.mk 10 1 (fun _ => Option.none)
        (fun k => if k = StreamName.state_a then Option.some [(1, 2)] else Option.none)
        1 [] Option.none).visualize = Option.some
      [{ render := "timeseries"
         data := RenderData.timeseries "State Stream Comparison"
           ((seriesItemsC (CmpState.mk 10 1 (fun _ => Option.none)
             (fun k => if k = StreamName.state_a then Option.some [(1, 2)] else Option.none)
             1 [] Option.none)).map (fun p => (p.1.str, p.2)))
         description := "Scalar projections for each incoming state stream." },
       { render := "table"
         data := RenderData.table ["Stream", "Latest Scalar"] []
         description := "Latest scalar value per state input stream." }] := by
  refine ⟨by decide, rfl, ?_⟩
  exact (visualize_exactly_two_blocks 10 1 []).2.2.2.2.1
    (CmpState.mk 10 1 (fun _ => Option.none)
      (fun k => if k = StreamName.state_a then Option.some [(1, 2)] else Option.none)
      1 [] Option.none) (by decide) rfl

end ModelsObservability
